import Mathlib

/-!
Verification of the heading-outline extractor in
`src/pdf_outline_extractor_new/main.py`.

The Python source is shallowly embedded below.  Modelling conventions:

* Font sizes are the integers produced by Python's `round(span["size"])`;
  spans in the model carry the already-rounded integer size.
* Bounding-box coordinates are modelled as integers; only their ordering is
  ever used by the source.
* Python string operations are modelled on ASCII text: `\s` is
  `Char.isWhitespace`, `\d` is `Char.isDigit`, `\w` is ASCII alphanumeric
  or underscore.  The regex patterns of the source, all anchored with
  `^...$`, are translated to total recursive matchers; the texts the
  source feeds them are `strip()`ped, so the "`$` also matches before a
  trailing newline" corner of Python regexes cannot fire.
* The comparisons `size >= th * 0.9` and `size >= th * 0.8` of the source
  compare an integer against an IEEE-double product.  For an integer
  threshold `th`, `fl(th * fl(0.9))` differs from the exact rational
  `9*th/10` by less than the distance from `9*th/10` to the nearest other
  integer (the relative error is ~2.3e-16 while the exact value is either
  an integer, reproduced exactly because the error is below half an ulp,
  or at distance ≥ 1/10 from every integer), so the float comparison is
  exactly the rational one and is embedded as `10 * size ≥ 9 * th`
  (resp. `10 * size ≥ 8 * th`).
-/

namespace PdfOutline

/-- Does `p` occur at the very start of `s`?  (Character-list matcher,
used to model Python's `in` substring test.) -/
def leadMatch : List Char → List Char → Bool
  | [], _ => true
  | _ :: _, [] => false
  | p :: ps, c :: cs => p == c && leadMatch ps cs

/-- Does `p` occur somewhere inside `s`? -/
def subMatch (p : List Char) : List Char → Bool
  | [] => leadMatch p []
  | c :: cs => leadMatch p (c :: cs) || subMatch p cs

/-- Python's substring test `pat in s`. -/
def strContains (s pat : String) : Bool :=
  subMatch pat.toList s.toList

/-- Python's `str.lower()` (ASCII). -/
def lowerStr (s : String) : String :=
  ⟨s.toList.map Char.toLower⟩

/-- Strip leading and trailing whitespace from a character list. -/
def trimChars (cs : List Char) : List Char :=
  ((cs.dropWhile Char.isWhitespace).reverse.dropWhile Char.isWhitespace).reverse

/-- Python's `str.strip()`. -/
def trimStr (s : String) : String :=
  ⟨trimChars s.toList⟩

/-- Python's `str.split(sep)` for a one-character separator. -/
def splitChar (sep : Char) : List Char → List (List Char)
  | [] => [[]]
  | c :: cs =>
    match splitChar sep cs with
    | [] => [[c]]
    | g :: gs => if c == sep then [] :: g :: gs else (c :: g) :: gs

/-- Accumulating pass behind `pySplit`. -/
def wordsAux (cur : List Char) : List Char → List (List Char)
  | [] => if cur = [] then [] else [cur.reverse]
  | c :: cs =>
    if c.isWhitespace then
      (if cur = [] then wordsAux [] cs else cur.reverse :: wordsAux [] cs)
    else wordsAux (c :: cur) cs

/-- Python's `str.split()` with no argument: split on whitespace runs,
dropping empty pieces. -/
def pySplit (s : String) : List String :=
  (wordsAux [] s.toList).map (fun w => ⟨w⟩)

/-- Join character lists with a separator (Python's `sep.join`). -/
def joinSep (sep : List Char) : List (List Char) → List Char
  | [] => []
  | [x] => x
  | x :: y :: rest => x ++ sep ++ joinSep sep (y :: rest)

/-- Fueled scan behind `pyReplace` (the fuel starts at the text length,
which bounds the number of steps, each consuming at least one
character). -/
def pyReplaceFuel (old new : List Char) : Nat → List Char → List Char
  | _, [] => []
  | 0, cs => cs
  | fuel + 1, c :: cs =>
    if leadMatch old (c :: cs) then
      new ++ pyReplaceFuel old new fuel (cs.drop (old.length - 1))
    else c :: pyReplaceFuel old new fuel cs

/-- Python's `str.replace(old, new)` for a nonempty `old`: replace every
non-overlapping occurrence, left to right. -/
def pyReplace (s old new : String) : String :=
  ⟨pyReplaceFuel old.toList new.toList s.toList.length s.toList⟩

/-- Python's `text.split('\n')[0].strip()`. -/
def firstLine (s : String) : String :=
  trimStr ⟨(splitChar '\n' s.toList).headD []⟩

/-- Core of Python's `str.title()`: uppercase a letter that follows a
non-letter, lowercase a letter that follows a letter, keep the rest. -/
def titleGo : Bool → List Char → List Char
  | _, [] => []
  | prev, c :: cs =>
    (if c.isAlpha then (if prev then c.toLower else c.toUpper) else c) ::
      titleGo c.isAlpha cs

/-- Python's `str.title()`. -/
def pyTitle (s : String) : String :=
  ⟨titleGo false s.toList⟩

/-- POSIX `os.path.basename`. -/
def basename (p : String) : String :=
  ⟨(splitChar '/' p.toList).getLastD []⟩

/-! ## Data model (the decoded PyMuPDF text-layout tree) -/

/-- A text span: `{"text": ..., "size": ..., "font": ...}` of the PyMuPDF
`dict` output, with the size already rounded to an integer. -/
structure Span where
  text : String
  size : Int
  font : String
deriving DecidableEq

/-- A line: ordered spans. -/
structure Line where
  spans : List Span
deriving DecidableEq

/-- A block: type tag (`0` = text), top/left coordinates of its bbox
(`bbox[1]`, `bbox[0]`), and its lines. -/
structure Block where
  btype : Int
  y0 : Int
  x0 : Int
  lines : List Line
deriving DecidableEq

/-- A page: ordered blocks. -/
structure Page where
  blocks : List Block
deriving DecidableEq

/-- A document: ordered pages (index = page number, zero-based). -/
abbrev Document := List Page

/-! ## Stable insertion sort (model of Python's stable `list.sort`) -/

/-- Insert `x` into `l`, placing it before the first element `y` with
`le x y`; with a total `le` this is the stable-sort insertion step. -/
def insertLE (le : α → α → Bool) (x : α) : List α → List α
  | [] => [x]
  | y :: ys => if le x y then x :: y :: ys else y :: insertLE le x ys

/-- Stable insertion sort by the boolean relation `le`. -/
def sortLE (le : α → α → Bool) (l : List α) : List α :=
  l.foldr (insertLE le) []

/-! ## `analyze_document_fonts` (main.py lines 7–31) -/

/-- Add `v` to the counter entry for `k` (Python `Counter` update,
insertion-ordered association list). -/
def addUsage : List (Int × Nat) → Int → Nat → List (Int × Nat)
  | [], k, v => [(k, v)]
  | (k', v') :: rest, k, v =>
    if k' = k then (k', v' + v) :: rest else (k', v') :: addUsage rest k v

/-- Per-span accumulation of `font_size_usage` (lines 20–24). -/
def spanUsage (m : List (Int × Nat)) (sp : Span) : List (Int × Nat) :=
  if sp.size > 0 ∧ trimStr sp.text ≠ "" then
    addUsage m sp.size (trimStr sp.text).length
  else m

/-- Per-line accumulation. -/
def lineUsage (m : List (Int × Nat)) (l : Line) : List (Int × Nat) :=
  l.spans.foldl spanUsage m

/-- Per-block accumulation (only `type == 0` text blocks). -/
def blockUsage (m : List (Int × Nat)) (b : Block) : List (Int × Nat) :=
  if b.btype = 0 then b.lines.foldl lineUsage m else m

/-- Per-page accumulation. -/
def pageUsage (m : List (Int × Nat)) (p : Page) : List (Int × Nat) :=
  p.blocks.foldl blockUsage m

/-- The whole-document font-size usage counter. -/
def spanUsages (doc : Document) : List (Int × Nat) :=
  doc.foldl pageUsage []

/-- Descending order on `(usage, size)` keys:
`sorted(..., key=lambda fs: (filtered[fs], fs), reverse=True)`. -/
def histLE (a b : Int × Nat) : Bool :=
  decide (b.2 < a.2 ∨ (a.2 = b.2 ∧ b.1 ≤ a.1))

/-- Lines 26–31 of `analyze_document_fonts`: drop sizes ≤ 9, sort the
remaining sizes by usage then size, both descending. -/
def rankSizes (m : List (Int × Nat)) : List Int :=
  (sortLE histLE (m.filter (fun p => p.1 > 9))).map (fun p => p.1)

/-- The function `analyze_document_fonts` composed end to end. -/
def analyze_document_fonts (doc : Document) : List Int :=
  rankSizes (spanUsages doc)

/-! ## `determine_heading_thresholds` (main.py lines 33–67) -/

/-- Lines 37–56: thresholds before the clamping steps.  `large` is the
ranked list restricted to sizes strictly above `BODY_TEXT_MAX_SIZE = 12`. -/
def preClamp (sorted_font_sizes : List Int) : Int × Int × Int :=
  match sorted_font_sizes.filter (fun fs => fs > 12) with
  | [] => (24, 18, 14)
  | [a] => (a, a, a)
  | [a, b] => (a, b, b)
  | a :: b :: c :: _ => (a, b, c)

/-- Lines 33–67 complete: pre-clamp values, then
`H2 := min(H2, H1)`, `H3 := min(H3, H2)`,
`H1 := max(H1, 14)`, `H2 := max(H2, 13)`, `H3 := max(H3, 12)`;
returns `(H1, H2, H3, BODY_TEXT_MAX_SIZE)`. -/
def determine_heading_thresholds (sorted_font_sizes : List Int) :
    Int × Int × Int × Int :=
  (max (preClamp sorted_font_sizes).1 (12 + 2),
   max (min (preClamp sorted_font_sizes).2.1 (preClamp sorted_font_sizes).1)
     (12 + 1),
   max (min (preClamp sorted_font_sizes).2.2
        (min (preClamp sorted_font_sizes).2.1 (preClamp sorted_font_sizes).1))
     12,
   12)

/-! ## `is_heading_candidate` (main.py lines 122–151) -/

/-- Consume `\s+`; `none` when no whitespace is present. -/
def matchWsPlus (cs : List Char) : Option (List Char) :=
  let s := cs.span Char.isWhitespace
  if s.1.isEmpty then none else some s.2

/-- Consume `\d+`; `none` when no digit is present. -/
def matchDigitsPlus (cs : List Char) : Option (List Char) :=
  let s := cs.span Char.isDigit
  if s.1.isEmpty then none else some s.2

/-- Regex `^\s*\d+(\.\d+)*\s*$` (line 130): after trimming, a nonempty
dot-separated sequence of nonempty digit groups. -/
def isNumDotSeq (t : String) : Bool :=
  trimChars t.toList ≠ [] &&
    (splitChar '.' (trimChars t.toList)).all
      (fun seg => seg ≠ [] && seg.all Char.isDigit)

/-- Regex tail `\s+\d+(\s+of\s+\d+)?$` of the page-number pattern, the tail of the page-number regex. -/
def pageTail (cs : List Char) : Bool :=
  match matchWsPlus cs with
  | none => false
  | some r1 =>
    match matchDigitsPlus r1 with
    | none => false
    | some r2 =>
      r2.isEmpty ||
        (match matchWsPlus r2 with
         | none => false
         | some r3 =>
           match r3 with
           | 'o' :: 'f' :: r4 =>
             (match matchWsPlus r4 with
              | none => false
              | some r5 =>
                match matchDigitsPlus r5 with
                | none => false
                | some r6 => r6.isEmpty)
           | _ => false)

/-- Regex `^(page|pg\.)\s+\d+(\s+of\s+\d+)?$` (line 131), applied to the
lowercased text. -/
def isPageNum (lower : String) : Bool :=
  match lower.toList with
  | 'p' :: 'a' :: 'g' :: 'e' :: rest => pageTail rest
  | 'p' :: 'g' :: '.' :: rest => pageTail rest
  | _ => false

/-- Regex `^\d{1,2}\s+[a-zA-Z]{3,}\s+\d{4}$` (line 132), a
"D Month YYYY" date. -/
def isDate (cs : List Char) : Bool :=
  let s1 := cs.span Char.isDigit
  (decide (1 ≤ s1.1.length) && decide (s1.1.length ≤ 2)) &&
    (match matchWsPlus s1.2 with
     | none => false
     | some r2 =>
       let s2 := r2.span Char.isAlpha
       decide (3 ≤ s2.1.length) &&
         (match matchWsPlus s2.2 with
          | none => false
          | some r4 =>
            let s3 := r4.span Char.isDigit
            s3.1.length == 4 && s3.2.isEmpty))

/-- Regex `^\s*[\W_]+\s*$` (line 136): nonempty and free of any ASCII
alphanumeric character (whitespace is itself in `\W`, and `_` is allowed). -/
def isSymbolsOnly (t : String) : Bool :=
  t ≠ "" && t.toList.all (fun c => !c.isAlphanum)

/-- Regex `^[ivxlcdm]+\.?$` (line 137) on the lowercased text:
a standalone roman numeral, optionally followed by a period. -/
def isRoman (lower : String) : Bool :=
  let s := lower.toList.span (fun c => ['i', 'v', 'x', 'l', 'c', 'd', 'm'].contains c)
  !s.1.isEmpty && (s.2.isEmpty || s.2 == ['.'])

/-- Line 141 (and line 214): the font name marks boldness when its
lowercase form contains "bold", "black", "heavy" or "demi". -/
def isBoldFont (font_name : String) : Bool :=
  strContains (lowerStr font_name) "bold" || strContains (lowerStr font_name) "black" ||
    strContains (lowerStr font_name) "heavy" || strContains (lowerStr font_name) "demi"

/-- The filter `is_heading_candidate` (lines 122–151).  The two float comparisons of
the source are embedded exactly (see the module docstring). -/
def is_heading_candidate (text : String) (font_size : Int) (font_name : String)
    (h1_th h2_th h3_th body_max_size : Int) : Bool :=
  if text = "" || text.length < 2 then false
  else if isNumDotSeq text || isPageNum (lowerStr text) || isDate text.toList ||
      strContains (lowerStr text) "copyright" || strContains (lowerStr text) "www." ||
      lowerStr text == "(continued)" || isSymbolsOnly text ||
      isRoman (lowerStr text) then false
  else if !isBoldFont font_name && font_size ≤ body_max_size then false
  else if 10 * font_size < 9 * h3_th then false
  else true

/-! ## `get_heading_level` (main.py lines 153–168) -/

/-- The function `get_heading_level`: size and boldness against the three thresholds. -/
def get_heading_level (font_size : Int) (is_bold : Bool)
    (h1_th h2_th h3_th : Int) : Option String :=
  if font_size ≥ h1_th && is_bold then some "H1"
  else if font_size ≥ h2_th && is_bold then some "H2"
  else if font_size ≥ h3_th && is_bold then some "H3"
  else none

/-- The keyword override of `extract_outline_from_pdf` (lines 222–237),
run only when `get_heading_level` produced no level.  Python's `and`
binds tighter than `or`, so the size condition attaches only to
`"introduction"`. -/
def overrideLevel (full_line_text : String) (span_font_size h2_th : Int) :
    Option String :=
  if strContains (lowerStr full_line_text) "table of contents" ||
      strContains (lowerStr full_line_text) "list of figures" ||
      strContains (lowerStr full_line_text) "list of tables" ||
      strContains (lowerStr full_line_text) "acknowledgements" ||
      strContains (lowerStr full_line_text) "foreword" ||
      strContains (lowerStr full_line_text) "preface" ||
      (strContains (lowerStr full_line_text) "introduction" &&
        decide (10 * span_font_size ≥ 9 * h2_th)) then some "H1"
  else if strContains (lowerStr full_line_text) "references" ||
      strContains (lowerStr full_line_text) "bibliography" ||
      strContains (lowerStr full_line_text) "appendix" ||
      strContains (lowerStr full_line_text) "glossary" ||
      strContains (lowerStr full_line_text) "index" then some "H1"
  else none

/-- The override condition as claim C3 words it: the six-keyword group,
or "introduction" conjoined with the size bound, or the
references/bibliography/appendix/glossary/index group. -/
def overrideSpecCond (t : String) (size h2 : Int) : Bool :=
  (strContains (lowerStr t) "table of contents" ||
      strContains (lowerStr t) "list of figures" ||
      strContains (lowerStr t) "list of tables" ||
      strContains (lowerStr t) "acknowledgements" ||
      strContains (lowerStr t) "foreword" ||
      strContains (lowerStr t) "preface") ||
    (strContains (lowerStr t) "introduction" && decide (10 * size ≥ 9 * h2)) ||
    (strContains (lowerStr t) "references" || strContains (lowerStr t) "bibliography" ||
      strContains (lowerStr t) "appendix" || strContains (lowerStr t) "glossary" ||
      strContains (lowerStr t) "index")

/-! ## `extract_title_from_document` (main.py lines 69–120) -/

/-- A potential-title tuple `(text_content, font_size, page_num, is_bold)`
(line 96). -/
structure TCand where
  text : String
  size : Int
  page : Nat
  bold : Bool
deriving DecidableEq

/-- Line 91: title detection counts only "bold" and "black" as bold. -/
def titleBold (font : String) : Bool :=
  strContains (lowerStr font) "bold" || strContains (lowerStr font) "black"

/-- Block order used throughout: ascending `(bbox[1], bbox[0])` =
`(top, left)` (lines 83 and 198). -/
def blockLE (a b : Block) : Bool :=
  decide (a.y0 < b.y0 ∨ (a.y0 = b.y0 ∧ a.x0 ≤ b.x0))

/-- Python's `blocks.sort(key=lambda b: (b["bbox"][1], b["bbox"][0]))`. -/
def sortBlocks (bs : List Block) : List Block :=
  sortLE blockLE bs

/-- Running-max scan step over one span (lines 88–98): restart the
candidate set on a strictly larger size, append on an equal size. -/
def titleSpanStep (page_num : Nat) (st : Int × List TCand) (sp : Span) :
    Int × List TCand :=
  if trimStr sp.text ≠ "" ∧ sp.size > 0 then
    if sp.size > st.1 then
      (sp.size, [⟨trimStr sp.text, sp.size, page_num, titleBold sp.font⟩])
    else if sp.size = st.1 then
      (st.1, st.2 ++ [⟨trimStr sp.text, sp.size, page_num, titleBold sp.font⟩])
    else st
  else st

/-- Scan one line's spans. -/
def titleLineStep (page_num : Nat) (st : Int × List TCand) (l : Line) :
    Int × List TCand :=
  l.spans.foldl (titleSpanStep page_num) st

/-- Scan one block (text blocks only). -/
def titleBlockStep (page_num : Nat) (st : Int × List TCand) (b : Block) :
    Int × List TCand :=
  if b.btype = 0 then b.lines.foldl (titleLineStep page_num) st else st

/-- Scan one page: blocks sorted by `(top, left)` first (line 83). -/
def titlePageStep (st : Int × List TCand) (page_num : Nat) (p : Page) :
    Int × List TCand :=
  (sortBlocks p.blocks).foldl (titleBlockStep page_num) st

/-- Scan the pages in order, threading the `(max size, candidates)` state
and the page counter. -/
def titleScan (st : Int × List TCand) (i : Nat) : List Page → Int × List TCand
  | [] => st
  | p :: ps => titleScan (titlePageStep st i p) (i + 1) ps

/-- The list `potential_titles` after scanning the first `min(len(document), 2)`
pages (lines 74–98). -/
def titleCands (doc : Document) : List TCand :=
  (titleScan (0, []) 0 (doc.take 2)).2

/-- Sort key order of line 104:
`(-size, page_num, -is_bold, -len(text))` ascending. -/
def tcandLE (a b : TCand) : Bool :=
  decide (b.size < a.size ∨ (a.size = b.size ∧
    (a.page < b.page ∨ (a.page = b.page ∧
      ((a.bold ∧ ¬b.bold) ∨ ((a.bold ↔ b.bold) ∧
        b.text.length ≤ a.text.length))))))

/-- Python's `potential_titles.sort(...)` (line 104), stable. -/
def sortTitles (cs : List TCand) : List TCand :=
  sortLE tcandLE cs

/-- Regex `^\d+$` (line 111): a bare integer. -/
def bareInt (t : String) : Bool :=
  t ≠ "" && t.toList.all Char.isDigit

/-- The selection conditions of lines 109–113: first page, more than two
words, size at least `0.8 * h1`, not a bare integer, and free of
"contents" and "page" (case-insensitive). -/
def titlePass (h1_threshold : Int) (c : TCand) : Bool :=
  c.page == 0 && decide (2 < (pySplit c.text).length) &&
    decide (10 * c.size ≥ 8 * h1_threshold) && !bareInt c.text &&
    !strContains (lowerStr c.text) "contents" &&
    !strContains (lowerStr c.text) "page"

/-- The selection loop of lines 107–114: return the first line of the
first passing candidate. -/
def selectTitle (h1_threshold : Int) : List TCand → Option String
  | [] => none
  | c :: rest =>
    if titlePass h1_threshold c then some (firstLine c.text)
    else selectTitle h1_threshold rest

/-- The function `extract_title_from_document` (lines 69–120): scan, early-out on an
empty candidate set, sort, select, and the page-0 fallback. -/
def extract_title_from_document (doc : Document) (h1_threshold : Int) :
    Option String :=
  if titleCands doc = [] then none
  else
    match selectTitle h1_threshold (sortTitles (titleCands doc)) with
    | some t => some t
    | none =>
      match sortTitles (titleCands doc) with
      | [] => none
      | c :: _ => if c.page = 0 then some (firstLine c.text) else none

/-- Claim C6's wording of the title selection: the first candidate of the
sorted list passing every condition, mapped to its first line; else the
top-ranked candidate's first line when it sits on page 0; else none. -/
def titleSpec (cands : List TCand) (h1_threshold : Int) : Option String :=
  match (sortTitles cands).find? (titlePass h1_threshold) with
  | some c => some (firstLine c.text)
  | none =>
    match (sortTitles cands).head? with
    | some c => if c.page = 0 then some (firstLine c.text) else none
    | none => none

/-! ## `extract_outline_from_pdf` (main.py lines 170–251) -/

/-- An outline entry `{"level": ..., "text": ..., "page": ...}`.
`page` is an `Int` so the sentinel `-1` of `last_added_heading` is
representable. -/
structure Entry where
  level : String
  text : String
  page : Int
deriving DecidableEq

/-- Python's `last_added_heading` initial value, text "", level "", page -1
(line 190). -/
def initialLast : Entry := ⟨"", "", -1⟩

/-- Lines 241–248: append the classified heading unless the outline is
nonempty and it coincides with `last_added_heading` in text, level and
page; on append, the new entry becomes `last_added_heading`. -/
def dedupStep (st : List Entry × Entry) (e : Entry) : List Entry × Entry :=
  if st.1 = [] ∨ e.text ≠ st.2.text ∨ e.level ≠ st.2.level ∨ e.page ≠ st.2.page
  then (st.1 ++ [e], e)
  else st

/-- Line 204: `" ".join(span texts).strip()`. -/
def lineText (l : Line) : String :=
  ⟨trimChars (joinSep [' '] (l.spans.map (fun sp => sp.text.toList)))⟩

/-- Python's `line.get("spans", [\x7b\x7d])[0]` default: the empty dict, i.e. text "",
size `round(0) = 0`, font "". -/
def dfltSpan : Span := ⟨"", 0, ""⟩

/-- Lines 204–237 for a single line: the empty-text guard, the
representative first-span style, candidacy, primary level, override.
Returns the level and display text, or `none`. -/
def classifyLine (l : Line) (h1_th h2_th h3_th body_max : Int) :
    Option (String × String) :=
  if lineText l = "" then none
  else if !is_heading_candidate (lineText l) (l.spans.headD dfltSpan).size
      (lowerStr (l.spans.headD dfltSpan).font) h1_th h2_th h3_th body_max then none
  else
    match get_heading_level (l.spans.headD dfltSpan).size
        (isBoldFont (lowerStr (l.spans.headD dfltSpan).font)) h1_th h2_th h3_th with
    | some lvl => some (lvl, lineText l)
    | none =>
      Option.map (fun lvl => (lvl, lineText l))
        (overrideLevel (lineText l) (l.spans.headD dfltSpan).size h2_th)

/-- The `OutlineEntry` a line produces on page `page_num` (zero-based):
page numbers in entries are 1-based (line 246). -/
def lineEntry (h1_th h2_th h3_th body_max : Int) (page_num : Nat) (l : Line) :
    Option Entry :=
  Option.map (fun p => ⟨p.1, p.2, (page_num : Int) + 1⟩)
    (classifyLine l h1_th h2_th h3_th body_max)

/-- One line of the builder walk: classify, then deduplicate-append. -/
def lineStep (h1_th h2_th h3_th body_max : Int) (page_num : Nat)
    (st : List Entry × Entry) (l : Line) : List Entry × Entry :=
  match lineEntry h1_th h2_th h3_th body_max page_num l with
  | none => st
  | some e => dedupStep st e

/-- One block of the builder walk (text blocks only, line 201). -/
def blockStep (h1_th h2_th h3_th body_max : Int) (page_num : Nat)
    (st : List Entry × Entry) (b : Block) : List Entry × Entry :=
  if b.btype = 0 then b.lines.foldl (lineStep h1_th h2_th h3_th body_max page_num) st
  else st

/-- One page of the builder walk: blocks sorted by `(top, left)`
(line 198). -/
def pageStep (h1_th h2_th h3_th body_max : Int) (page_num : Nat)
    (st : List Entry × Entry) (p : Page) : List Entry × Entry :=
  (sortBlocks p.blocks).foldl (blockStep h1_th h2_th h3_th body_max page_num) st

/-- The page loop of lines 193–248, with the explicit page counter. -/
def pagesWalk (h1_th h2_th h3_th body_max : Int) (i : Nat)
    (st : List Entry × Entry) : List Page → List Entry × Entry
  | [] => st
  | p :: ps =>
    pagesWalk h1_th h2_th h3_th body_max (i + 1)
      (pageStep h1_th h2_th h3_th body_max i st p) ps

/-- The outline assembled by `extract_outline_from_pdf` for a document,
given the four thresholds. -/
def extract_outline (h1_th h2_th h3_th body_max : Int) (doc : Document) :
    List Entry :=
  (pagesWalk h1_th h2_th h3_th body_max 0 ([], initialLast) doc).1

/-- The classified entries one block contributes, in walk order, before
deduplication. -/
def blockCandidates (h1_th h2_th h3_th body_max : Int) (page_num : Nat)
    (b : Block) : List Entry :=
  if b.btype = 0 then b.lines.filterMap (lineEntry h1_th h2_th h3_th body_max page_num)
  else []

/-- The classified entries one page contributes, in walk order (blocks
sorted by `(top, left)`), before deduplication. -/
def pageCandidates (h1_th h2_th h3_th body_max : Int) (page_num : Nat)
    (p : Page) : List Entry :=
  ((sortBlocks p.blocks).map (blockCandidates h1_th h2_th h3_th body_max page_num)).flatten

/-- All classified entries of the pages from index `i` on, in document
walk order, before deduplication. -/
def docCandidatesFrom (h1_th h2_th h3_th body_max : Int) (i : Nat) :
    List Page → List Entry
  | [] => []
  | p :: ps =>
    pageCandidates h1_th h2_th h3_th body_max i p ++
      docCandidatesFrom h1_th h2_th h3_th body_max (i + 1) ps

/-- All classified entries of the whole document, in walk order, before
deduplication. -/
def docCandidates (h1_th h2_th h3_th body_max : Int) (doc : Document) :
    List Entry :=
  docCandidatesFrom h1_th h2_th h3_th body_max 0 doc

/-! ## The per-document result (lines 170–251) -/

/-- The record with title and outline fields returned by
`extract_outline_from_pdf`. -/
structure OutlineResult where
  title : String
  outline : List Entry
deriving DecidableEq

/-- The thresholds tuple computed for a document (lines 180–181). -/
def docThresholds (doc : Document) : Int × Int × Int × Int :=
  determine_heading_thresholds (analyze_document_fonts doc)

/-- The filename fallback of line 187:
`os.path.basename(path).replace(".pdf", "").replace("_", " ").title()`. -/
def fallback_title (pdf_path : String) : String :=
  pyTitle (pyReplace (pyReplace (basename pdf_path) ".pdf" "") "_" " ")

/-- The function `extract_outline_from_pdf` after `fitz.open` succeeded (the document
decoding itself is the external collaborator): thresholds, title with the
filename fallback (Python's `if not extracted_title:` also catches the
empty string), and the outline walk. -/
def extract_outline_result (doc : Document) (pdf_path : String) : OutlineResult :=
  { title :=
      match extract_title_from_document doc (docThresholds doc).1 with
      | none => fallback_title pdf_path
      | some t => if t = "" then fallback_title pdf_path else t
    outline :=
      extract_outline (docThresholds doc).1 (docThresholds doc).2.1
        (docThresholds doc).2.2.1 (docThresholds doc).2.2.2 doc }

/-! ## Theorems -/

theorem ifH1_or (x y : Bool) :
    (if x = true then some "H1" else if y = true then some "H1" else (none : Option String)) =
      (if (x || y) = true then some "H1" else none) := by
  cases x <;> cases y <;> rfl

/-- Claim C1: for every ranked size list (hence every histogram), the
thresholds of `determine_heading_thresholds` satisfy
`h1 ≥ h2 ≥ h3 ≥ 12`, and the returned body-text maximum is 12. -/
theorem claim_C1 (l : List Int) :
    (determine_heading_thresholds l).2.1 ≤ (determine_heading_thresholds l).1 ∧
    (determine_heading_thresholds l).2.2.1 ≤ (determine_heading_thresholds l).2.1 ∧
    12 ≤ (determine_heading_thresholds l).2.2.1 ∧
    (determine_heading_thresholds l).2.2.2 = 12 := by
  have h : determine_heading_thresholds l =
      (max (preClamp l).1 (12 + 2),
       max (min (preClamp l).2.1 (preClamp l).1) (12 + 1),
       max (min (preClamp l).2.2 (min (preClamp l).2.1 (preClamp l).1)) 12,
       12) := rfl
  rw [h]
  refine ⟨?_, ?_, ?_, rfl⟩ <;> dsimp only <;> omega

/-- Claim C3: the keyword override assigns `H1` exactly under the
condition of claim C3 — the six-keyword group, or `"introduction"`
conjoined (only it) with `size ≥ 0.9 × h2`, or the
references/bibliography/appendix/glossary/index group — and produces
nothing otherwise. -/
theorem claim_C3 (t : String) (size h2 : Int) :
    overrideLevel t size h2 =
      if overrideSpecCond t size h2 = true then some "H1" else none := by
  simp only [overrideLevel, overrideSpecCond]
  rw [ifH1_or]

/-- Claim C4: with the ranked sizes strictly above 12 written `large`,
the pre-clamp thresholds are ranks 1–3 of `large` when it has three or
more elements, `(r1, r2, r2)` with exactly two, `(r1, r1, r1)` with
exactly one, and the defaults `(24, 18, 14)` with none; the histogram
`{28: 40}` yields `h1 = h2 = h3 = 28`. -/
theorem claim_C4 :
    (∀ (l : List Int) (a b c : Int) (rest : List Int),
        l.filter (fun fs => fs > 12) = a :: b :: c :: rest →
        preClamp l = (a, b, c)) ∧
    (∀ (l : List Int) (a b : Int),
        l.filter (fun fs => fs > 12) = [a, b] → preClamp l = (a, b, b)) ∧
    (∀ (l : List Int) (a : Int),
        l.filter (fun fs => fs > 12) = [a] → preClamp l = (a, a, a)) ∧
    (∀ l : List Int,
        l.filter (fun fs => fs > 12) = [] → preClamp l = (24, 18, 14)) ∧
    determine_heading_thresholds (rankSizes [(28, 40)]) = (28, 28, 28, 12) := by
  refine ⟨?_, ?_, ?_, ?_, by decide⟩
  · intro l a b c rest h
    simp only [preClamp, h]
  · intro l a b h
    simp only [preClamp, h]
  · intro l a h
    simp only [preClamp, h]
  · intro l h
    simp only [preClamp, h]

/-- Witness for C4 at concrete ranked lists covering all four arms. -/
theorem claim_C4_witness :
    preClamp [30, 20, 15, 8] = (30, 20, 15) ∧
    preClamp [20, 15, 10] = (20, 15, 15) ∧
    preClamp [15] = (15, 15, 15) ∧
    preClamp [12, 5] = (24, 18, 14) :=
  ⟨claim_C4.1 [30, 20, 15, 8] 30 20 15 [] (by decide),
   claim_C4.2.1 [20, 15, 10] 20 15 (by decide),
   claim_C4.2.2.1 [15] 15 (by decide),
   claim_C4.2.2.2.1 [12, 5] (by decide)⟩

/-- Counterexample to claim C2: with the thresholds
`determine_heading_thresholds` produces for the empty ranked list —
`(24, 18, 14, 12)` — a line whose full text is exactly "References" at
size 10 with non-bold font "TimesNewRoman" is rejected by
`is_heading_candidate`, yields no entry from `classifyLine`, and a
one-page document holding only that line gets the empty outline. -/
theorem claim_C2_counterexample :
    determine_heading_thresholds [] = (24, 18, 14, 12) ∧
    is_heading_candidate "References" 10 "timesnewroman" 24 18 14 12 = false ∧
    classifyLine (Line.mk [⟨"References", 10, "TimesNewRoman"⟩]) 24 18 14 12 = none ∧
    extract_outline 24 18 14 12
      [⟨[⟨0, 0, 0, [⟨[⟨"References", 10, "TimesNewRoman"⟩]⟩]⟩]⟩] = [] := by
  refine ⟨by decide, by decide, by decide, by decide⟩

/-- Claim C2 as amended: for every thresholds value produced by
`determine_heading_thresholds`, a line whose text is "References" at
size 10 with a font name whose lowercase form contains none of
bold/black/heavy/demi is rejected by the candidacy filter (non-bold and
`10 ≤ 12`), so it never reaches the keyword override and yields no
OutlineEntry. -/
theorem claim_C2_amended :
    (∀ (l : List Int) (fname : String), isBoldFont fname = false →
        is_heading_candidate "References" 10 fname
          (determine_heading_thresholds l).1
          (determine_heading_thresholds l).2.1
          (determine_heading_thresholds l).2.2.1
          (determine_heading_thresholds l).2.2.2 = false) ∧
    (∀ (l : List Int) (ln : Line), lineText ln = "References" →
        (ln.spans.headD dfltSpan).size = 10 →
        isBoldFont (lowerStr (ln.spans.headD dfltSpan).font) = false →
        classifyLine ln (determine_heading_thresholds l).1
          (determine_heading_thresholds l).2.1
          (determine_heading_thresholds l).2.2.1
          (determine_heading_thresholds l).2.2.2 = none) := by
  have hA : ∀ (l : List Int) (fname : String), isBoldFont fname = false →
      is_heading_candidate "References" 10 fname
        (determine_heading_thresholds l).1
        (determine_heading_thresholds l).2.1
        (determine_heading_thresholds l).2.2.1
        (determine_heading_thresholds l).2.2.2 = false := by
    intro l fname hb
    simp only [is_heading_candidate]
    rw [hb]
    rfl
  refine ⟨hA, ?_⟩
  intro l ln ht hs hb
  have h1 := hA l (lowerStr (ln.spans.headD dfltSpan).font) hb
  simp only [classifyLine, ht, hs, h1]
  rfl

/-- Witness for the amended C2 at a concrete font and line. -/
theorem claim_C2_witness :
    is_heading_candidate "References" 10 "TimesNewRoman"
      (determine_heading_thresholds []).1
      (determine_heading_thresholds []).2.1
      (determine_heading_thresholds []).2.2.1
      (determine_heading_thresholds []).2.2.2 = false ∧
    classifyLine (Line.mk [⟨"References", 10, "TimesNewRoman"⟩])
      (determine_heading_thresholds []).1
      (determine_heading_thresholds []).2.1
      (determine_heading_thresholds []).2.2.1
      (determine_heading_thresholds []).2.2.2 = none :=
  ⟨claim_C2_amended.1 [] "TimesNewRoman" (by decide),
   claim_C2_amended.2 [] (Line.mk [⟨"References", 10, "TimesNewRoman"⟩])
     (by rfl) (by rfl) (by decide)⟩

/-- Claim C7: a line whose full text is "12" or "Page 3 of 10" is
rejected by `is_heading_candidate` for every font size, font name and
thresholds, and therefore yields no OutlineEntry from the classifier. -/
theorem claim_C7 :
    (∀ (font_size : Int) (font_name : String) (h1 h2 h3 bm : Int),
        is_heading_candidate "12" font_size font_name h1 h2 h3 bm = false ∧
        is_heading_candidate "Page 3 of 10" font_size font_name h1 h2 h3 bm = false) ∧
    (∀ (l : Line) (h1 h2 h3 bm : Int),
        lineText l = "12" ∨ lineText l = "Page 3 of 10" →
        classifyLine l h1 h2 h3 bm = none) := by
  have hA : ∀ (font_size : Int) (font_name : String) (h1 h2 h3 bm : Int),
      is_heading_candidate "12" font_size font_name h1 h2 h3 bm = false ∧
      is_heading_candidate "Page 3 of 10" font_size font_name h1 h2 h3 bm = false := by
    intro font_size font_name h1 h2 h3 bm
    exact ⟨rfl, rfl⟩
  refine ⟨hA, ?_⟩
  intro l h1 h2 h3 bm ht
  rcases ht with ht | ht
  · simp only [classifyLine, ht,
      (hA (l.spans.headD dfltSpan).size (lowerStr (l.spans.headD dfltSpan).font)
        h1 h2 h3 bm).1]
    rfl
  · simp only [classifyLine, ht,
      (hA (l.spans.headD dfltSpan).size (lowerStr (l.spans.headD dfltSpan).font)
        h1 h2 h3 bm).2]
    rfl

/-- Witness for C7 at concrete lines with a large bold font. -/
theorem claim_C7_witness :
    classifyLine (Line.mk [⟨"12", 30, "Arial-Bold"⟩]) 24 18 14 12 = none ∧
    classifyLine (Line.mk [⟨"Page 3 of 10", 30, "Arial-Bold"⟩]) 24 18 14 12 = none :=
  ⟨claim_C7.2 (Line.mk [⟨"12", 30, "Arial-Bold"⟩]) 24 18 14 12 (Or.inl (by decide)),
   claim_C7.2 (Line.mk [⟨"Page 3 of 10", 30, "Arial-Bold"⟩]) 24 18 14 12
     (Or.inr (by decide))⟩

/-- Claim C10: a line whose joined span texts trim to the empty string —
including a line with no spans — is skipped by the builder before the
first-span style is read: it yields no entry and leaves the builder state
unchanged; conversely a nonempty display text guarantees the span list is
nonempty, so the `spans[0]` access of the source cannot go out of
bounds. -/
theorem claim_C10 :
    (∀ (l : Line) (h1 h2 h3 bm : Int) (i : Nat) (st : List Entry × Entry),
        lineText l = "" →
        classifyLine l h1 h2 h3 bm = none ∧ lineStep h1 h2 h3 bm i st l = st) ∧
    (∀ l : Line, lineText l ≠ "" → l.spans ≠ []) ∧
    (∀ l : Line, l.spans = [] → lineText l = "") := by
  have hC : ∀ l : Line, l.spans = [] → lineText l = "" := by
    intro l h
    cases l with
    | mk spans =>
      simp only at h
      subst h
      rfl
  refine ⟨?_, ?_, hC⟩
  · intro l h1 h2 h3 bm i st ht
    have hcl : classifyLine l h1 h2 h3 bm = none := by
      simp [classifyLine, ht]
    exact ⟨hcl, by simp [lineStep, lineEntry, hcl]⟩
  · intro l h hcon
    exact h (hC l hcon)

/-- Witness for C10 at the empty-span line. -/
theorem claim_C10_witness :
    classifyLine (Line.mk []) 24 18 14 12 = none ∧
    lineStep 24 18 14 12 0 ([], initialLast) (Line.mk []) = ([], initialLast) :=
  claim_C10.1 (Line.mk []) 24 18 14 12 0 ([], initialLast) (by rfl)

/-- Invariant of the dedup fold: a nonempty outline ends with the
`last_added_heading` slot. -/
theorem dedup_lastInv (es : List Entry) :
    ∀ st : List Entry × Entry, st.1 = [] ∨ st.1.getLast? = some st.2 →
      (es.foldl dedupStep st).1 = [] ∨
        (es.foldl dedupStep st).1.getLast? = some (es.foldl dedupStep st).2 := by
  induction es with
  | nil => exact fun st h => h
  | cons e es ih =>
    intro st h
    simp only [List.foldl_cons]
    apply ih
    unfold dedupStep
    by_cases hc : st.1 = [] ∨ e.text ≠ st.2.text ∨ e.level ≠ st.2.level ∨
        e.page ≠ st.2.page
    · rw [if_pos hc]
      exact Or.inr (List.getLast?_concat st.1)
    · rw [if_neg hc]
      exact h

/-- The step `dedupStep` leaves the state unchanged exactly when the outline ends
with the incoming entry — granted the last-slot invariant. -/
theorem dedupStep_self_iff (st : List Entry × Entry) (e : Entry)
    (hinv : st.1 = [] ∨ st.1.getLast? = some st.2) :
    dedupStep st e = st ↔ st.1.getLast? = some e := by
  unfold dedupStep
  by_cases hc : st.1 = [] ∨ e.text ≠ st.2.text ∨ e.level ≠ st.2.level ∨
      e.page ≠ st.2.page
  · rw [if_pos hc]
    constructor
    · intro heq
      have hlen := congrArg (fun p => p.1.length) heq
      simp at hlen
    · intro hlast
      rcases hinv with hnil | hlast2
      · rw [hnil] at hlast
        simp at hlast
      · rw [hlast2] at hlast
        have he : e = st.2 := (Option.some.inj hlast).symm
        subst he
        rcases hc with hnil | hd | hd | hd
        · rw [hnil] at hlast2
          simp at hlast2
        all_goals exact absurd rfl hd
  · rw [if_neg hc]
    push_neg at hc
    obtain ⟨hne, ht, hl, hp⟩ := hc
    have he : e = st.2 := by
      cases e with
      | mk a b c =>
        simp only at ht hl hp
        rw [ht, hl, hp]
    constructor
    · intro _
      rcases hinv with hnil | hlast
      · exact absurd hnil hne
      · rw [hlast, he]
    · intro _
      rfl

/-- When `dedupStep` changes the state it appends the entry and records
it as the new last slot. -/
theorem dedupStep_append (st : List Entry × Entry) (e : Entry)
    (h : dedupStep st e ≠ st) : dedupStep st e = (st.1 ++ [e], e) := by
  unfold dedupStep at h ⊢
  by_cases hc : st.1 = [] ∨ e.text ≠ st.2.text ∨ e.level ≠ st.2.level ∨
      e.page ≠ st.2.page
  · rw [if_pos hc]
  · rw [if_neg hc] at h
    exact absurd rfl h

/-- The line loop is the dedup fold over that block's classified
entries. -/
theorem lines_foldl_eq (h1 h2 h3 bm : Int) (i : Nat) (ls : List Line) :
    ∀ st, ls.foldl (lineStep h1 h2 h3 bm i) st =
      (ls.filterMap (lineEntry h1 h2 h3 bm i)).foldl dedupStep st := by
  induction ls with
  | nil => intro st; rfl
  | cons l ls ih =>
    intro st
    simp only [List.foldl_cons, List.filterMap_cons]
    cases h : lineEntry h1 h2 h3 bm i l with
    | none =>
      simp only [lineStep, h]
      exact ih st
    | some e =>
      simp only [lineStep, h, List.foldl_cons]
      exact ih (dedupStep st e)

/-- The block step is the dedup fold over `blockCandidates`. -/
theorem block_foldl_eq (h1 h2 h3 bm : Int) (i : Nat) (b : Block) (st : List Entry × Entry) :
    blockStep h1 h2 h3 bm i st b =
      (blockCandidates h1 h2 h3 bm i b).foldl dedupStep st := by
  unfold blockStep blockCandidates
  by_cases hb : b.btype = 0
  · rw [if_pos hb, if_pos hb]
    exact lines_foldl_eq h1 h2 h3 bm i b.lines st
  · rw [if_neg hb, if_neg hb]
    rfl

/-- The block loop of a page is the dedup fold over its flattened
candidates. -/
theorem blocks_foldl_eq (h1 h2 h3 bm : Int) (i : Nat) (bs : List Block) :
    ∀ st, bs.foldl (blockStep h1 h2 h3 bm i) st =
      ((bs.map (blockCandidates h1 h2 h3 bm i)).flatten).foldl dedupStep st := by
  induction bs with
  | nil => intro st; rfl
  | cons b bs ih =>
    intro st
    simp only [List.foldl_cons, List.map_cons, List.flatten_cons, List.foldl_append]
    rw [block_foldl_eq]
    exact ih (List.foldl dedupStep st (blockCandidates h1 h2 h3 bm i b))

/-- The page step is the dedup fold over `pageCandidates`. -/
theorem page_foldl_eq (h1 h2 h3 bm : Int) (i : Nat) (p : Page) (st : List Entry × Entry) :
    pageStep h1 h2 h3 bm i st p =
      (pageCandidates h1 h2 h3 bm i p).foldl dedupStep st := by
  unfold pageStep pageCandidates
  exact blocks_foldl_eq h1 h2 h3 bm i (sortBlocks p.blocks) st

/-- The page loop is the dedup fold over the document candidates. -/
theorem pagesWalk_eq (h1 h2 h3 bm : Int) (ps : List Page) :
    ∀ (i : Nat) (st : List Entry × Entry),
      pagesWalk h1 h2 h3 bm i st ps =
        (docCandidatesFrom h1 h2 h3 bm i ps).foldl dedupStep st := by
  induction ps with
  | nil => intro i st; rfl
  | cons p ps ih =>
    intro i st
    simp only [pagesWalk, docCandidatesFrom, List.foldl_append]
    rw [page_foldl_eq]
    exact ih (i + 1) (List.foldl dedupStep st (pageCandidates h1 h2 h3 bm i p))

/-- The whole builder is a single dedup fold over the walk-order
candidate list. -/
theorem extract_outline_eq_foldl (h1 h2 h3 bm : Int) (doc : Document) :
    extract_outline h1 h2 h3 bm doc =
      ((docCandidates h1 h2 h3 bm doc).foldl dedupStep ([], initialLast)).1 := by
  unfold extract_outline docCandidates
  rw [pagesWalk_eq]

/-- The dedup fold appends a subsequence of its input entry list. -/
theorem dedup_foldl_sublist (es : List Entry) :
    ∀ st : List Entry × Entry,
      ∃ s, (es.foldl dedupStep st).1 = st.1 ++ s ∧ List.Sublist s es := by
  induction es with
  | nil =>
    intro st
    exact ⟨[], by simp, List.nil_sublist []⟩
  | cons e es ih =>
    intro st
    simp only [List.foldl_cons]
    by_cases hne : dedupStep st e = st
    · rw [hne]
      obtain ⟨s, hs, hsub⟩ := ih st
      exact ⟨s, hs, List.Sublist.cons e hsub⟩
    · rw [dedupStep_append st e hne]
      obtain ⟨s, hs, hsub⟩ := ih (st.1 ++ [e], e)
      refine ⟨e :: s, ?_, List.Sublist.cons₂ e hsub⟩
      rw [hs, List.append_assoc]
      rfl

/-- Every entry a page contributes carries that page's 1-based number. -/
theorem pageCandidates_page (h1 h2 h3 bm : Int) (i : Nat) (p : Page) :
    ∀ e ∈ pageCandidates h1 h2 h3 bm i p, e.page = (i : Int) + 1 := by
  intro e he
  unfold pageCandidates at he
  rw [List.mem_flatten] at he
  obtain ⟨l, hl, hel⟩ := he
  rw [List.mem_map] at hl
  obtain ⟨b, _, rfl⟩ := hl
  unfold blockCandidates at hel
  by_cases hb : b.btype = 0
  · rw [if_pos hb] at hel
    rw [List.mem_filterMap] at hel
    obtain ⟨ln, _, hln⟩ := hel
    unfold lineEntry at hln
    cases hcl : classifyLine ln h1 h2 h3 bm with
    | none =>
      rw [hcl] at hln
      simp at hln
    | some pr =>
      rw [hcl] at hln
      have he := Option.some.inj hln
      rw [← he]
  · rw [if_neg hb] at hel
    simp at hel

/-- The walk-order candidate list is bounded below by the starting page
number and sorted by page. -/
theorem docCandidatesFrom_sorted (h1 h2 h3 bm : Int) (ps : List Page) :
    ∀ i : Nat,
      (∀ e ∈ docCandidatesFrom h1 h2 h3 bm i ps, (i : Int) + 1 ≤ e.page) ∧
      List.Pairwise (fun a b : Entry => a.page ≤ b.page)
        (docCandidatesFrom h1 h2 h3 bm i ps) := by
  induction ps with
  | nil =>
    intro i
    constructor
    · intro e he
      simp [docCandidatesFrom] at he
    · simp [docCandidatesFrom]
  | cons p ps ih =>
    intro i
    have hpage := pageCandidates_page h1 h2 h3 bm i p
    obtain ⟨ihb, ihs⟩ := ih (i + 1)
    constructor
    · intro e he
      unfold docCandidatesFrom at he
      rw [List.mem_append] at he
      rcases he with he | he
      · rw [hpage e he]
      · have h' := ihb e he
        push_cast at h' ⊢
        omega
    · unfold docCandidatesFrom
      rw [List.pairwise_append]
      refine ⟨?_, ihs, ?_⟩
      · apply List.pairwise_of_forall_mem_list
        intro a ha b hb
        rw [hpage a ha, hpage b hb]
      · intro a ha b hb
        have h1' := hpage a ha
        have h2' := ihb b hb
        rw [h1']
        push_cast at h2' ⊢
        omega

/-- Claim C5: the builder suppresses a classified heading exactly when
the outline is nonempty and the heading equals the last appended entry in
text, level and page; otherwise it appends it and records it in the
single last-added slot, which the builder threads through the whole
document (the builder is one dedup fold over the walk-order candidates);
consecutive identical "Appendix" headings on page 3 collapse to one entry
while the same heading on page 7 yields another. -/
theorem claim_C5 :
    (∀ (es : List Entry) (e : Entry) (st : List Entry × Entry),
        st = es.foldl dedupStep ([], initialLast) →
        ((dedupStep st e = st ↔ st.1.getLast? = some e) ∧
          (dedupStep st e ≠ st → dedupStep st e = (st.1 ++ [e], e)))) ∧
    (∀ (h1 h2 h3 bm : Int) (doc : Document),
        extract_outline h1 h2 h3 bm doc =
          ((docCandidates h1 h2 h3 bm doc).foldl dedupStep ([], initialLast)).1) ∧
    (List.foldl dedupStep ([], initialLast)
        [⟨"H1", "Appendix", 3⟩, ⟨"H1", "Appendix", 3⟩, ⟨"H1", "Appendix", 7⟩]).1 =
      [⟨"H1", "Appendix", 3⟩, ⟨"H1", "Appendix", 7⟩] := by
  refine ⟨?_, extract_outline_eq_foldl, by decide⟩
  intro es e st hst
  have hinv : st.1 = [] ∨ st.1.getLast? = some st.2 := by
    rw [hst]
    exact dedup_lastInv es ([], initialLast) (Or.inl rfl)
  exact ⟨dedupStep_self_iff st e hinv, dedupStep_append st e⟩

/-- Witness for C5: suppression of an immediate duplicate and append of
a later recurrence, at concrete states reached from the empty outline. -/
theorem claim_C5_witness :
    dedupStep ([⟨"H1", "Appendix", 3⟩], ⟨"H1", "Appendix", 3⟩) ⟨"H1", "Appendix", 3⟩ =
      ([⟨"H1", "Appendix", 3⟩], ⟨"H1", "Appendix", 3⟩) ∧
    dedupStep ([⟨"H1", "Appendix", 3⟩], ⟨"H1", "Appendix", 3⟩) ⟨"H1", "Appendix", 7⟩ =
      ([⟨"H1", "Appendix", 3⟩] ++ [⟨"H1", "Appendix", 7⟩], ⟨"H1", "Appendix", 7⟩) :=
  ⟨((claim_C5.1 [⟨"H1", "Appendix", 3⟩] ⟨"H1", "Appendix", 3⟩
      ([⟨"H1", "Appendix", 3⟩], ⟨"H1", "Appendix", 3⟩) (by decide)).1).mpr (by decide),
   (claim_C5.1 [⟨"H1", "Appendix", 3⟩] ⟨"H1", "Appendix", 7⟩
      ([⟨"H1", "Appendix", 3⟩], ⟨"H1", "Appendix", 3⟩) (by decide)).2 (by decide)⟩

/-- Claim C8: the outline is a subsequence of the walk-order candidate
list — pages in index order, blocks sorted by `(top, left)` within a
page, lines in original order within a block — so entries on one page
keep that page's block order, and the entry pages are non-decreasing
across the whole outline; the builder never re-sorts after assembly. -/
theorem claim_C8 (h1 h2 h3 bm : Int) (doc : Document) :
    List.Sublist (extract_outline h1 h2 h3 bm doc) (docCandidates h1 h2 h3 bm doc) ∧
    List.Pairwise (fun a b : Entry => a.page ≤ b.page)
      (extract_outline h1 h2 h3 bm doc) := by
  obtain ⟨s, hs, hsub⟩ :=
    dedup_foldl_sublist (docCandidates h1 h2 h3 bm doc) ([], initialLast)
  have h₁ : extract_outline h1 h2 h3 bm doc = s := by
    rw [extract_outline_eq_foldl, hs]
    rfl
  have hsorted := (docCandidatesFrom_sorted h1 h2 h3 bm doc 0).2
  constructor
  · rw [h₁]
    exact hsub
  · rw [h₁]
    exact List.Pairwise.sublist hsub hsorted

/-- The selection loop is `List.find?` over the passing condition. -/
theorem selectTitle_eq_find (h1_threshold : Int) (cs : List TCand) :
    selectTitle h1_threshold cs =
      Option.map (fun c => firstLine c.text) (cs.find? (titlePass h1_threshold)) := by
  induction cs with
  | nil => rfl
  | cons c cs ih =>
    simp only [selectTitle]
    cases hc : titlePass h1_threshold c
    · rw [if_neg (by simp), List.find?_cons_of_neg cs (by simp [hc])]
      exact ih
    · rw [if_pos rfl, List.find?_cons_of_pos cs hc]
      rfl

/-- Claim C6: `extract_title_from_document` is exactly the selection the
claim describes — the first candidate of the list sorted by
`(size desc, page asc, bold desc, length desc)` that passes every
condition, reduced to its first line; failing that, the top-ranked
candidate's first line when it lies on page 0; otherwise none. -/
theorem claim_C6 (doc : Document) (h1_threshold : Int) :
    extract_title_from_document doc h1_threshold =
      titleSpec (titleCands doc) h1_threshold := by
  unfold extract_title_from_document titleSpec
  by_cases hnil : titleCands doc = []
  · rw [if_pos hnil, hnil]
    rfl
  · rw [if_neg hnil, selectTitle_eq_find]
    cases hf : (sortTitles (titleCands doc)).find? (titlePass h1_threshold) with
    | some c => rfl
    | none =>
      cases hs : sortTitles (titleCands doc) with
      | nil => rfl
      | cons c cs => rfl

/-- Claim C9: for every traversable document the extractor returns a
plain `OutlineResult`: its outline is the builder's output (possibly
empty), and when title detection yields none the title is the
filename-derived fallback; the empty document yields the fallback title
and the empty outline — a representable result, not an error. -/
theorem claim_C9 (doc : Document) (pdf_path : String) :
    (extract_outline_result doc pdf_path).outline =
      extract_outline (docThresholds doc).1 (docThresholds doc).2.1
        (docThresholds doc).2.2.1 (docThresholds doc).2.2.2 doc ∧
    (extract_title_from_document doc (docThresholds doc).1 = none →
      (extract_outline_result doc pdf_path).title = fallback_title pdf_path) ∧
    extract_outline_result [] pdf_path =
      { title := fallback_title pdf_path, outline := [] } := by
  refine ⟨rfl, ?_, rfl⟩
  intro h
  unfold extract_outline_result
  rw [h]

/-- Witness for C9: the empty document's title detection yields none and
the result title is the filename fallback. -/
theorem claim_C9_witness :
    extract_title_from_document [] (docThresholds []).1 = none ∧
    (extract_outline_result [] "docs/annual_report.pdf").title =
      fallback_title "docs/annual_report.pdf" :=
  ⟨rfl, (claim_C9 [] "docs/annual_report.pdf").2.1 rfl⟩

end PdfOutline
